import Mathlib

/-
Verification of the sliding-window rate limiter (package ratelimiter).

The embedding models:
  * limiter.go      — Request, State, Result, Strategy;
  * the counter strategy (counterStrategy.Run) — the Redis sorted set for a
    key is a list of (score, member) records; time.Time values and
    time.Duration values are integers in milliseconds (all scores and window
    bounds in the source are computed with UnixMilli); the injected clock
    value `now` and the freshly generated UUID `u` are passed as explicit
    parameters; the Redis client's behaviour on each call is modelled by a
    `Faults` record: `none` means the call succeeds and its value is computed
    from the store, `some` carries the error the client reports (for the
    pre-check ZCount, also the numeric value the client hands back alongside
    the error, since the source reads that value regardless of the error);
  * middleware.go   — the HTTP header extractor and the rate-limiting
    middleware, reduced to the decision they take for one request (which
    response is written and whether the wrapped handler runs).
-/

namespace RateLimiter

/-- State from limiter.go: `Deny State = 0`, `Allow State = 1`. -/
inductive State where
  | Deny
  | Allow
deriving DecidableEq

/-- Request from limiter.go: key, limit (uint64) and window duration. -/
structure Request where
  Key : String
  Limit : Nat
  Duration : Int
deriving DecidableEq

/-- Result from limiter.go: state, total request count, expiry instant. -/
structure Result where
  State : State
  TotalRequests : Nat
  ExpiresAt : Int
deriving DecidableEq

/-- One member of the sorted set held under a key: the score is the request
timestamp in milliseconds, the member string is the request's UUID. -/
structure Rec where
  score : Int
  member : String
deriving DecidableEq

/-- The shared Redis state, as seen through sorted-set commands: each key
holds a list of records. -/
def Store := String → List Rec

/-- A store with no records under any key. -/
def emptyStore : Store := fun _ => []

/-- Replace the record list held under one key. -/
def setKey (st : Store) (k : String) (l : List Rec) : Store :=
  fun k2 => if k2 = k then l else st k2

/-- ZCOUNT key minimum +inf: how many records have score at least `minimum`
(a Redis ZCOUNT bound given as a plain number is inclusive). -/
def zcountFrom (l : List Rec) (minimum : Int) : Nat :=
  (l.filter (fun item => decide (minimum ≤ item.score))).length

/-- The pre-check probe of counterStrategy.Run: ZCount(ctx, key,
minimum.UnixMilli(), "+inf") against the current store. -/
def preCheckCount (st : Store) (k : String) (minimum : Int) : Nat :=
  zcountFrom (st k) minimum

/-- ZREMRANGEBYSCORE key lo hi: drop every record whose score lies in the
inclusive range [lo, hi]. -/
def zremRangeByScore (l : List Rec) (lo hi : Int) : List Rec :=
  l.filter (fun item => decide (¬ (lo ≤ item.score ∧ item.score ≤ hi)))

/-- ZCOUNT key -inf +inf: the full cardinality of the set. -/
def zcard (l : List Rec) : Nat := l.length

/-- Outcomes of the Redis calls issued by one counterStrategy.Run evaluation.
`none` means the call succeeds (its value is computed from the store);
`some` carries the error string the client reports. For the pre-check
ZCount the fault also carries the numeric value returned alongside the
error, because the source reads `result` even when `err != nil`. -/
structure Faults where
  probe : Option (String × Nat)
  exec : Option String
  rem : Option String
  add : Option String
  count : Option String
deriving DecidableEq

/-- Every Redis call succeeds. -/
def noFaults : Faults := ⟨none, none, none, none, none⟩

/-- The errors counterStrategy.Run can return, each wrapping the underlying
cause and the request key exactly as the errors.Wrapf calls do. -/
inductive RunError where
  | pipelineExecFailed (cause : String) (key : String)
  | removeFailed (cause : String) (key : String)
  | addFailed (cause : String) (key : String)
  | countFailed (cause : String) (key : String)
deriving DecidableEq

/-- The fast-reject guard of counterStrategy.Run, exactly as the source
writes it: `err != nil && result >= r.Limit`. When the probe succeeded the
error is nil, so the guard is false; when the probe failed the guard compares
the limit against the value the client handed back with the error. -/
def fastRejects (f : Faults) (limit : Nat) : Bool :=
  match f.probe with
  | some ev => limit ≤ ev.2
  | none => false

/-- counterStrategy.Run from the source. `now` is the injected clock value
(`s.now()`), `u` the UUID generated for this request, `f` the behaviour of
the Redis client on this evaluation, `st` the store contents. Returns the
(result, error) pair as an Except together with the store after the
evaluation. A failed pipeline Exec is modelled as not applying the batch;
an individual command fault leaves that command's effect unapplied while the
other queued commands still take effect. -/
def counterStrategy.Run (now : Int) (u : String) (f : Faults) (st : Store)
    (r : Request) : Except RunError Result × Store :=
  let expiresAt : Int := now + r.Duration
  let minimum : Int := now - r.Duration
  let result : Nat :=
    match f.probe with
    | some ev => ev.2
    | none => preCheckCount st r.Key minimum
  if fastRejects f r.Limit then
    (Except.ok ⟨State.Deny, result, expiresAt⟩, st)
  else
    let pruned : List Rec :=
      if f.rem.isSome then st r.Key else zremRangeByScore (st r.Key) 0 minimum
    let afterAdd : List Rec :=
      if f.add.isSome then pruned else pruned ++ [⟨now, u⟩]
    let newStore : Store := setKey st r.Key afterAdd
    match f.exec with
    | some e => (Except.error (RunError.pipelineExecFailed e r.Key), st)
    | none =>
      match f.rem with
      | some e => (Except.error (RunError.removeFailed e r.Key), newStore)
      | none =>
        match f.add with
        | some e => (Except.error (RunError.addFailed e r.Key), newStore)
        | none =>
          match f.count with
          | some e => (Except.error (RunError.countFailed e r.Key), newStore)
          | none =>
            let totalRequests : Nat := zcard afterAdd
            if r.Limit < totalRequests then
              (Except.ok ⟨State.Deny, totalRequests, expiresAt⟩, newStore)
            else
              (Except.ok ⟨State.Allow, totalRequests, expiresAt⟩, newStore)

/-- The store after `n` fault-free sequential evaluations for key `k`
(limit `L`, window `D`), all at clock value `now`, starting from a fresh
store; the UUID of the i-th request is the decimal rendering of i. -/
def seqStore (now D : Int) (k : String) (L : Nat) : Nat → Store
  | 0 => emptyStore
  | n + 1 =>
      (counterStrategy.Run now (toString n) noFaults (seqStore now D k L n)
        ⟨k, L, D⟩).2

/-- The outcome of the (n+1)-th fault-free sequential evaluation for key `k`
in the run described by `seqStore`. -/
def seqOut (now D : Int) (k : String) (L : Nat) (n : Nat) :
    Except RunError Result :=
  (counterStrategy.Run now (toString n) noFaults (seqStore now D k L n)
    ⟨k, L, D⟩).1

/-- An inbound HTTP request, seen through the only accessor the package
uses: `r.Header.Get`. -/
structure HTTPRequest where
  Header : String → String

/-- stateStrings from middleware.go. -/
def stateStrings : State → String
  | State.Allow => "Allow"
  | State.Deny => "Deny"

/-- The Strategy interface consumed by the middleware: one Run call,
producing a Result or an error. -/
abbrev Strategy := Request → Except String Result

/-- RateLimiterConfig from middleware.go. -/
structure RateLimiterConfig where
  Extractor : HTTPRequest → Except String String
  Strategy : Strategy
  Expiration : Int
  MaxRequests : Nat

/-- The three Rate-Limiting-* header values the middleware sets from a
Result before answering. -/
structure RLHeaders where
  totalRequests : Nat
  state : String
  expiresAt : Int
deriving DecidableEq

/-- What the middleware does with one request: answer 400 (extractor
failed), answer 500 (strategy returned an error), answer 429 (Deny), or
pass the request to the wrapped handler. Only the last one invokes the
wrapped handler. -/
inductive MiddlewareOutcome where
  | extractFailed (msg : String)
  | strategyFailed (msg : String)
  | denied (h : RLHeaders)
  | passedToHandler (h : RLHeaders)
deriving DecidableEq

/-- httpRateLimiterHandler.RateLimitingMiddleware from middleware.go,
reduced to the decision it takes for one request. -/
def RateLimitingMiddleware (cfg : RateLimiterConfig) (req : HTTPRequest) :
    MiddlewareOutcome :=
  match cfg.Extractor req with
  | Except.error e => MiddlewareOutcome.extractFailed e
  | Except.ok key =>
    match cfg.Strategy ⟨key, cfg.MaxRequests, cfg.Expiration⟩ with
    | Except.error e => MiddlewareOutcome.strategyFailed e
    | Except.ok result =>
      let h : RLHeaders :=
        ⟨result.TotalRequests, stateStrings result.State, result.ExpiresAt⟩
      if result.State = State.Deny then MiddlewareOutcome.denied h
      else MiddlewareOutcome.passedToHandler h

/-- The loop body of httpHeaderExtractor.Extract: trim each configured
header's value, fail on the first empty one, collect the rest in order. -/
def extractValues (headers : List String) (r : HTTPRequest) :
    Except String (List String) :=
  match headers with
  | [] => Except.ok []
  | key :: rest =>
    let value := (r.Header key).trim
    if value = "" then
      Except.error ("the header " ++ key ++ " must have a value set")
    else
      match extractValues rest r with
      | Except.error e => Except.error e
      | Except.ok vs => Except.ok (value :: vs)

/-- httpHeaderExtractor.Extract from middleware.go: the extractor built by
NewHTTPHeadersExtractor over the given header names joins the collected
values with "-". -/
def httpHeaderExtractor.Extract (headers : List String) (r : HTTPRequest) :
    Except String String :=
  match extractValues headers r with
  | Except.error e => Except.error e
  | Except.ok values => Except.ok (String.intercalate "-" values)

/-- Evaluation lemma: when the fast-reject guard is false and none of the
four pipeline calls fault, Run prunes [0, now − D], appends the new record,
and answers from the resulting cardinality. -/
theorem run_pipeline_ok (now : Int) (u : String) (f : Faults) (st : Store)
    (r : Request) (hfr : fastRejects f r.Limit = false) (hex : f.exec = none)
    (hrm : f.rem = none) (had : f.add = none) (hct : f.count = none) :
    counterStrategy.Run now u f st r =
      (Except.ok
        ⟨if r.Limit <
              (zremRangeByScore (st r.Key) 0 (now - r.Duration)
                ++ [(⟨now, u⟩ : Rec)]).length
            then State.Deny else State.Allow,
          (zremRangeByScore (st r.Key) 0 (now - r.Duration)
            ++ [(⟨now, u⟩ : Rec)]).length,
          now + r.Duration⟩,
        setKey st r.Key
          (zremRangeByScore (st r.Key) 0 (now - r.Duration)
            ++ [(⟨now, u⟩ : Rec)])) := by
  simp [counterStrategy.Run, hfr, hex, hrm, had, hct, zcard]
  split <;> simp_all

/-- The guard is false whenever no fault is injected. -/
theorem fastRejects_noFaults (limit : Nat) :
    fastRejects noFaults limit = false := rfl

/-- Every Result an evaluation returns carries expiry now + duration. -/
theorem run_expiresAt (now : Int) (u : String) (f : Faults) (st : Store)
    (r : Request) (res : Result)
    (h : (counterStrategy.Run now u f st r).1 = Except.ok res) :
    res.ExpiresAt = now + r.Duration := by
  rcases f with ⟨p, ex, rm, ad, ct⟩
  cases p <;> cases ex <;> cases rm <;> cases ad <;> cases ct <;>
    simp [counterStrategy.Run, fastRejects] at h <;>
    repeat' split at h
  all_goals
    first
      | exact Except.noConfusion h
      | (have h2 : _ = res := Except.ok.inj h; subst h2; rfl)

/-- A record that satisfies the inclusive lower bound contributes exactly
one to the ZCOUNT value: removing one occurrence of it lowers the count by
one. -/
theorem zcountFrom_erase (minimum : Int) :
    ∀ (l : List Rec) (x : Rec), x ∈ l → minimum ≤ x.score →
      zcountFrom l minimum = zcountFrom (l.erase x) minimum + 1 := by
  intro l
  induction l with
  | nil =>
    intro x hx hscore
    exact absurd hx (List.not_mem_nil x)
  | cons a t ih =>
    intro x hx hscore
    rw [List.erase_cons]
    by_cases hax : a = x
    · subst hax
      simp [zcountFrom, List.filter_cons, hscore]
    · rw [if_neg (by simp [hax])]
      have hxt : x ∈ t := by
        rcases List.mem_cons.mp hx with h1 | h1
        · exact absurd h1.symm hax
        · exact h1
      have hrec := ih x hxt hscore
      simp only [zcountFrom, List.filter_cons] at hrec ⊢
      by_cases hpa : minimum ≤ a.score <;> simp [hpa] <;> omega

/-- In the sequential fault-free run, after n evaluations at clock `now`
with a positive window the key holds exactly the n inserted records, in
insertion order. -/
theorem seqStore_spec (now D : Int) (k : String) (L : Nat) (hD : 0 < D) :
    ∀ n, seqStore now D k L n k =
      (List.range n).map (fun i => (⟨now, toString i⟩ : Rec)) := by
  intro n
  induction n with
  | zero => rfl
  | succ m ih =>
    have hkeep :
        zremRangeByScore
            ((List.range m).map (fun i => (⟨now, toString i⟩ : Rec)))
            0 (now - D) =
          (List.range m).map (fun i => (⟨now, toString i⟩ : Rec)) := by
      rw [zremRangeByScore, List.filter_eq_self]
      intro a ha
      rcases List.mem_map.mp ha with ⟨i, _, hi⟩
      subst hi
      simp only [decide_eq_true_eq]
      intro hcon
      omega
    show (counterStrategy.Run now (toString m) noFaults (seqStore now D k L m)
        ⟨k, L, D⟩).2 k = _
    rw [run_pipeline_ok now (toString m) noFaults (seqStore now D k L m)
        ⟨k, L, D⟩ rfl rfl rfl rfl rfl]
    show setKey (seqStore now D k L m) k
        (zremRangeByScore (seqStore now D k L m k) 0 (now - D)
          ++ [(⟨now, toString m⟩ : Rec)]) k = _
    have hsk : ∀ (st : Store) (l : List Rec), setKey st k l k = l := by
      intro st l
      simp [setKey]
    rw [hsk, ih, hkeep, List.range_succ, List.map_append]
    rfl

/-- In the sequential fault-free run, the (n+1)-th evaluation counts n + 1
records and denies exactly when that count exceeds the limit. -/
theorem seqOut_spec (now D : Int) (k : String) (L : Nat) (hD : 0 < D)
    (n : Nat) :
    seqOut now D k L n =
      Except.ok ⟨if L < n + 1 then State.Deny else State.Allow, n + 1,
        now + D⟩ := by
  rw [seqOut, run_pipeline_ok now (toString n) noFaults (seqStore now D k L n)
      ⟨k, L, D⟩ rfl rfl rfl rfl rfl]
  have hkey : (⟨k, L, D⟩ : Request).Key = k := rfl
  have hdur : (⟨k, L, D⟩ : Request).Duration = D := rfl
  simp only [hkey, hdur]
  rw [seqStore_spec now D k L hD n]
  have hkeep :
      zremRangeByScore
          ((List.range n).map (fun i => (⟨now, toString i⟩ : Rec)))
          0 (now - D) =
        (List.range n).map (fun i => (⟨now, toString i⟩ : Rec)) := by
    rw [zremRangeByScore, List.filter_eq_self]
    intro a ha
    rcases List.mem_map.mp ha with ⟨i, _, hi⟩
    subst hi
    simp only [decide_eq_true_eq]
    intro hcon
    omega
  rw [hkeep]
  simp [List.length_append]

/-- C1: the source's fast-reject guard is inverted — it reads `err != nil
&& result >= r.Limit`. Evidence at a concrete input: key "k" already holds
one record inside the window and the limit is 1; the pre-check probe
succeeds and reports a count of 1 ≥ 1, so per the claim Run should deny with
count 1 and write nothing. Instead it falls through to the write path,
inserts a second record (the key's list grows to length 2) and returns Deny
with count 2. -/
theorem c1_fast_reject_guard_inverted :
    preCheckCount (setKey emptyStore "k" [(⟨950, "a"⟩ : Rec)]) "k"
        (1000 - 100) = 1 ∧
    (counterStrategy.Run 1000 "b" noFaults
        (setKey emptyStore "k" [(⟨950, "a"⟩ : Rec)]) ⟨"k", 1, 100⟩).1 =
      Except.ok ⟨State.Deny, 2, 1100⟩ ∧
    ((counterStrategy.Run 1000 "b" noFaults
        (setKey emptyStore "k" [(⟨950, "a"⟩ : Rec)]) ⟨"k", 1, 100⟩).2
        "k").length = 2 :=
  ⟨rfl, rfl, rfl⟩

/-- C2 counterexample: the pre-check probe reports a store error together
with a count of 2, the limit is 2, and Run answers with a Deny Result and a
nil error — the store failure is swallowed into a Result instead of
surfacing. -/
theorem c2_counterexample :
    (counterStrategy.Run 1000 "u"
        ⟨some ("probe failed", 2), none, none, none, none⟩ emptyStore
        ⟨"k", 2, 100⟩).1 =
      Except.ok ⟨State.Deny, 2, 1100⟩ := rfl

/-- C2 amended: Run returns an error exactly when the fast-reject guard did
not fire and one of the pipeline operations (Exec, prune, insert, count)
reported an error. In particular every pipeline failure surfaces with no
Result, but a pre-check probe failure never surfaces: it either trips the
(inverted) fast-reject guard, producing a Deny Result with nil error, or is
silently ignored on the way to the write path. -/
theorem c2_error_surfacing (now : Int) (u : String) (f : Faults) (st : Store)
    (r : Request) :
    (∃ err, (counterStrategy.Run now u f st r).1 = Except.error err) ↔
      (fastRejects f r.Limit = false ∧
        (f.exec.isSome ∨ f.rem.isSome ∨ f.add.isSome ∨ f.count.isSome)) := by
  rcases f with ⟨p, ex, rm, ad, ct⟩
  cases hfr : fastRejects ⟨p, ex, rm, ad, ct⟩ r.Limit with
  | true =>
    simp [counterStrategy.Run, hfr]
  | false =>
    cases ex <;> cases rm <;> cases ad <;> cases ct <;>
      simp [counterStrategy.Run, hfr] <;>
      (split <;> simp)

/-- C3: on the write path the decision boundary is "count after insertion
exceeds the limit ⇒ Deny, otherwise Allow" — the returned total is the
post-insertion cardinality, one more than what survives the prune — and in a
fault-free sequential run on a fresh key (positive window, positive limit,
all requests inside one window) the L-th request is allowed with count L and
the (L+1)-th request is denied with count L + 1. -/
theorem c3_write_path_boundary (now : Int) (u : String) (st : Store)
    (r : Request) (now2 D2 : Int) (k2 : String) (L2 : Nat) (hD2 : 0 < D2)
    (hL2 : 0 < L2) :
    (∀ res, (counterStrategy.Run now u noFaults st r).1 = Except.ok res →
        res.TotalRequests =
          (zremRangeByScore (st r.Key) 0 (now - r.Duration)).length + 1 ∧
        (res.State = State.Deny ↔ r.Limit < res.TotalRequests)) ∧
    seqOut now2 D2 k2 L2 (L2 - 1) =
      Except.ok ⟨State.Allow, L2, now2 + D2⟩ ∧
    seqOut now2 D2 k2 L2 L2 = Except.ok ⟨State.Deny, L2 + 1, now2 + D2⟩ := by
  refine ⟨?_, ?_, ?_⟩
  · intro res hres
    rw [run_pipeline_ok now u noFaults st r rfl rfl rfl rfl rfl] at hres
    have h2 : _ = res := Except.ok.inj hres
    subst h2
    constructor
    · simp
    · split <;> simp_all
  · rw [seqOut_spec now2 D2 k2 L2 hD2 (L2 - 1),
      Nat.sub_add_cancel hL2, if_neg (lt_irrefl L2)]
  · rw [seqOut_spec now2 D2 k2 L2 hD2 L2, if_pos (Nat.lt_succ_self L2)]

/-- C3 witness: limit 2, window 5, fresh key — the 2nd sequential request is
allowed with count 2, the 3rd denied with count 3. -/
theorem c3_write_path_boundary_witness :
    seqOut 0 5 "q" 2 1 = Except.ok ⟨State.Allow, 2, 5⟩ ∧
    seqOut 0 5 "q" 2 2 = Except.ok ⟨State.Deny, 3, 5⟩ := by
  have h := c3_write_path_boundary 0 "u" emptyStore ⟨"k", 1, 1⟩ 0 5 "q" 2
    (by decide) (by decide)
  exact ⟨h.2.1, h.2.2⟩

/-- C4 counterexample: key "c" holds one in-window record and the limit is
1. The evaluation returns Deny (count 2) via the write path, yet the new
record ⟨2000, "new"⟩ has been inserted under the caller's key — a denied
operation did create an activity record. -/
theorem c4_counterexample :
    (counterStrategy.Run 2000 "new" noFaults
        (setKey emptyStore "c" [(⟨1990, "old"⟩ : Rec)]) ⟨"c", 1, 50⟩).1 =
      Except.ok ⟨State.Deny, 2, 2050⟩ ∧
    (⟨2000, "new"⟩ : Rec) ∈
      (counterStrategy.Run 2000 "new" noFaults
        (setKey emptyStore "c" [(⟨1990, "old"⟩ : Rec)]) ⟨"c", 1, 50⟩).2 "c" := by
  constructor
  · rfl
  · decide

/-- C4 amended: only the fast-reject branch denies without writing; every
evaluation that reaches the write path — in particular every fault-free
evaluation, whether it returns Allow or Deny — inserts the new record for
the caller's key (the key's list becomes the pruned list plus the new
record). -/
theorem c4_insertion_on_write_path (now : Int) (u : String) (f : Faults)
    (st : Store) (r : Request) :
    ((counterStrategy.Run now u noFaults st r).2 r.Key =
      zremRangeByScore (st r.Key) 0 (now - r.Duration)
        ++ [(⟨now, u⟩ : Rec)]) ∧
    (fastRejects f r.Limit = true → (counterStrategy.Run now u f st r).2 = st) := by
  constructor
  · rw [run_pipeline_ok now u noFaults st r rfl rfl rfl rfl rfl]
    simp [setKey]
  · intro hfr
    simp [counterStrategy.Run, hfr]

/-- C4 amended witness: a fault-free evaluation on an empty store inserts
its record, and a fast-rejecting evaluation (probe error with reported count
5 ≥ limit 3) leaves the store untouched. -/
theorem c4_insertion_on_write_path_witness :
    (counterStrategy.Run 7 "u" noFaults emptyStore ⟨"k", 3, 2⟩).2 "k" =
      zremRangeByScore (emptyStore "k") 0 (7 - 2) ++ [(⟨7, "u"⟩ : Rec)] ∧
    (counterStrategy.Run 7 "u" ⟨some ("x", 5), none, none, none, none⟩
        emptyStore ⟨"k", 3, 2⟩).2 = emptyStore :=
  ⟨(c4_insertion_on_write_path 7 "u" noFaults emptyStore ⟨"k", 3, 2⟩).1,
    (c4_insertion_on_write_path 7 "u"
      ⟨some ("x", 5), none, none, none, none⟩ emptyStore ⟨"k", 3, 2⟩).2 rfl⟩

/-- C5 counterexample: the store holds exactly one record, with score
exactly now − D (now = 1000, D = 100, score 900). The pre-check probe of the
source counts scores in the inclusive range [now − D, +inf), so it reports
1, not 0 — the window-edge record is NOT excluded from the probe's count. -/
theorem c5_counterexample :
    preCheckCount (setKey emptyStore "e" [(⟨900, "edge"⟩ : Rec)]) "e"
      (1000 - 100) = 1 := rfl

/-- C5 amended: the two range operators disagree at the window edge. A
record with score exactly now − D (and nonnegative score) contributes one to
the pre-check probe's count, whose lower bound is inclusive; the write
path's prune ZREMRANGEBYSCORE [0, now − D] removes it, so it is absent from
the set whose cardinality the write path counts. -/
theorem c5_window_edge (now : Int) (u : String) (st : Store) (r : Request)
    (x : Rec) (hmem : x ∈ st r.Key) (hs : x.score = now - r.Duration)
    (h0 : 0 ≤ x.score) (hD : 0 < r.Duration) :
    preCheckCount st r.Key (now - r.Duration) =
      zcountFrom ((st r.Key).erase x) (now - r.Duration) + 1 ∧
    x ∉ (counterStrategy.Run now u noFaults st r).2 r.Key := by
  constructor
  · exact zcountFrom_erase (now - r.Duration) (st r.Key) x hmem (le_of_eq hs.symm)
  · rw [run_pipeline_ok now u noFaults st r rfl rfl rfl rfl rfl]
    show x ∉ setKey st r.Key _ r.Key
    have hsk : ∀ (l : List Rec), setKey st r.Key l r.Key = l := by
      intro l
      simp [setKey]
    rw [hsk]
    intro hmem2
    rcases List.mem_append.mp hmem2 with hin | hin
    · rw [zremRangeByScore, List.mem_filter] at hin
      rcases hin with ⟨_, hpred⟩
      simp only [decide_eq_true_eq] at hpred
      exact hpred ⟨h0, le_of_eq hs⟩
    · have hx : x = (⟨now, u⟩ : Rec) := by
        simpa using hin
      have : x.score = now := by rw [hx]
      omega

/-- C5 amended witness: with one record at the window edge (score 900 =
1000 − 100), the probe counts it (count 1 = 0 + 1) and the evaluation's
write path drops it from the stored set. -/
theorem c5_window_edge_witness :
    preCheckCount (setKey emptyStore "e" [(⟨900, "m"⟩ : Rec)]) "e"
        (1000 - 100) =
      zcountFrom (((setKey emptyStore "e" [(⟨900, "m"⟩ : Rec)]) "e").erase
        (⟨900, "m"⟩ : Rec)) (1000 - 100) + 1 ∧
    (⟨900, "m"⟩ : Rec) ∉
      (counterStrategy.Run 1000 "u" noFaults
        (setKey emptyStore "e" [(⟨900, "m"⟩ : Rec)]) ⟨"e", 5, 100⟩).2 "e" :=
  c5_window_edge 1000 "u" (setKey emptyStore "e" [(⟨900, "m"⟩ : Rec)])
    ⟨"e", 5, 100⟩ ⟨900, "m"⟩ (by decide) (by decide) (by decide) (by decide)

/-- C6 counterexample: a request violating all three validity conditions at
once (empty key, zero limit, zero — hence non-positive — duration) is not
rejected up front: with a healthy store Run probes, prunes, inserts a record
under the empty key and returns a Deny Result with nil error, instead of
failing fast with an InvalidRequest error before any store access. -/
theorem c6_counterexample :
    (counterStrategy.Run 1000 "u" noFaults emptyStore ⟨"", 0, 0⟩).1 =
      Except.ok ⟨State.Deny, 1, 1000⟩ ∧
    ((counterStrategy.Run 1000 "u" noFaults emptyStore ⟨"", 0, 0⟩).2
        "").length = 1 :=
  ⟨rfl, rfl⟩

/-- C6 amended: Run performs no request validation at all. Whatever the
request — empty key, zero limit, non-positive duration included — a
fault-free evaluation always reaches the store, inserts its record under the
request's key and returns a Result rather than an error. -/
theorem c6_no_validation (now : Int) (u : String) (st : Store)
    (r : Request) :
    (∃ res, (counterStrategy.Run now u noFaults st r).1 = Except.ok res) ∧
    (⟨now, u⟩ : Rec) ∈ (counterStrategy.Run now u noFaults st r).2 r.Key := by
  constructor
  · rw [run_pipeline_ok now u noFaults st r rfl rfl rfl rfl rfl]
    exact ⟨_, rfl⟩
  · rw [run_pipeline_ok now u noFaults st r rfl rfl rfl rfl rfl]
    show (⟨now, u⟩ : Rec) ∈ setKey st r.Key _ r.Key
    have hsk : ∀ (l : List Rec), setKey st r.Key l r.Key = l := by
      intro l
      simp [setKey]
    rw [hsk]
    exact List.mem_append_right _ (List.mem_singleton_self _)

/-- C7: on the write path (the fast-reject guard did not fire), a failed
pipeline Exec, or an error reported by the prune, insert or count command
inside the executed batch, makes Run return the corresponding wrapping
error — carrying the underlying cause and the request key — and no Result;
the checks happen in the source's order (Exec, then prune, insert, count). -/
theorem c7_write_path_errors (now : Int) (u : String) (f : Faults)
    (st : Store) (r : Request) (hfr : fastRejects f r.Limit = false) :
    (∀ e, f.exec = some e →
        (counterStrategy.Run now u f st r).1 =
          Except.error (RunError.pipelineExecFailed e r.Key)) ∧
    (∀ e, f.exec = none → f.rem = some e →
        (counterStrategy.Run now u f st r).1 =
          Except.error (RunError.removeFailed e r.Key)) ∧
    (∀ e, f.exec = none → f.rem = none → f.add = some e →
        (counterStrategy.Run now u f st r).1 =
          Except.error (RunError.addFailed e r.Key)) ∧
    (∀ e, f.exec = none → f.rem = none → f.add = none → f.count = some e →
        (counterStrategy.Run now u f st r).1 =
          Except.error (RunError.countFailed e r.Key)) := by
  refine ⟨?_, ?_, ?_, ?_⟩
  · intro e hex
    simp [counterStrategy.Run, hfr, hex]
  · intro e hex hrm
    simp [counterStrategy.Run, hfr, hex, hrm]
  · intro e hex hrm had
    simp [counterStrategy.Run, hfr, hex, hrm, had]
  · intro e hex hrm had hct
    simp [counterStrategy.Run, hfr, hex, hrm, had, hct]

/-- C7 witness: a failed pipeline Exec surfaces as pipelineExecFailed
wrapping the cause "boom" and the key "k", with no Result. -/
theorem c7_write_path_errors_witness :
    (counterStrategy.Run 10 "u" ⟨none, some "boom", none, none, none⟩
        emptyStore ⟨"k", 1, 5⟩).1 =
      Except.error (RunError.pipelineExecFailed "boom" "k") :=
  (c7_write_path_errors 10 "u" ⟨none, some "boom", none, none, none⟩
    emptyStore ⟨"k", 1, 5⟩ rfl).1 "boom" rfl

/-- C8: every Result an evaluation returns — on the fast-reject path or the
write path, Allow or Deny — carries ExpiresAt = evaluation time + window
duration, and for two evaluations sharing the window duration the two
ExpiresAt values differ by exactly the difference of the evaluation times. -/
theorem c8_expiry (now1 now2 : Int) (u1 u2 : String) (f1 f2 : Faults)
    (st1 st2 : Store) (r1 r2 : Request) (res1 res2 : Result)
    (hd : r1.Duration = r2.Duration)
    (h1 : (counterStrategy.Run now1 u1 f1 st1 r1).1 = Except.ok res1)
    (h2 : (counterStrategy.Run now2 u2 f2 st2 r2).1 = Except.ok res2) :
    res1.ExpiresAt = now1 + r1.Duration ∧
    res2.ExpiresAt = now2 + r2.Duration ∧
    res1.ExpiresAt - res2.ExpiresAt = now1 - now2 := by
  have e1 := run_expiresAt now1 u1 f1 st1 r1 res1 h1
  have e2 := run_expiresAt now2 u2 f2 st2 r2 res2 h2
  refine ⟨e1, e2, ?_⟩
  rw [e1, e2, hd]
  ring

/-- C8 witness: two fault-free evaluations with window 5 at times 10 and 3
return expiries 15 and 8, which differ by 10 − 3. -/
theorem c8_expiry_witness :
    (Result.mk State.Allow 1 15).ExpiresAt = 10 + 5 ∧
    (Result.mk State.Allow 1 8).ExpiresAt = 3 + 5 ∧
    (Result.mk State.Allow 1 15).ExpiresAt -
        (Result.mk State.Allow 1 8).ExpiresAt = 10 - 3 :=
  c8_expiry 10 3 "a" "b" noFaults noFaults emptyStore emptyStore
    ⟨"k", 1, 5⟩ ⟨"k", 1, 5⟩ ⟨State.Allow, 1, 15⟩ ⟨State.Allow, 1, 8⟩
    rfl rfl rfl

/-- C9: when the strategy's evaluation returns an error the middleware
answers with the server-error response and the wrapped handler is not
invoked; when it returns a Deny result the middleware answers with the
too-many-requests rejection and the wrapped handler is not invoked; the
request reaches the wrapped handler only when the evaluation succeeds with
state Allow. -/
theorem c9_middleware (cfg : RateLimiterConfig) (req : HTTPRequest) :
    (∀ key e, cfg.Extractor req = Except.ok key →
        cfg.Strategy ⟨key, cfg.MaxRequests, cfg.Expiration⟩ =
          Except.error e →
        RateLimitingMiddleware cfg req =
          MiddlewareOutcome.strategyFailed e) ∧
    (∀ key res, cfg.Extractor req = Except.ok key →
        cfg.Strategy ⟨key, cfg.MaxRequests, cfg.Expiration⟩ =
          Except.ok res →
        res.State = State.Deny →
        RateLimitingMiddleware cfg req =
          MiddlewareOutcome.denied
            ⟨res.TotalRequests, stateStrings res.State, res.ExpiresAt⟩) ∧
    (∀ h, RateLimitingMiddleware cfg req =
          MiddlewareOutcome.passedToHandler h →
        ∃ key res, cfg.Extractor req = Except.ok key ∧
          cfg.Strategy ⟨key, cfg.MaxRequests, cfg.Expiration⟩ =
            Except.ok res ∧
          res.State = State.Allow) := by
  refine ⟨?_, ?_, ?_⟩
  · intro key e hk hs
    simp [RateLimitingMiddleware, hk, hs]
  · intro key res hk hs hd
    simp [RateLimitingMiddleware, hk, hs, hd]
  · intro h hout
    cases hk : cfg.Extractor req with
    | error e =>
      simp [RateLimitingMiddleware, hk] at hout
    | ok key =>
      cases hs : cfg.Strategy ⟨key, cfg.MaxRequests, cfg.Expiration⟩ with
      | error e =>
        simp [RateLimitingMiddleware, hk, hs] at hout
      | ok res =>
        cases hSt : res.State with
        | Deny =>
          simp [RateLimitingMiddleware, hk, hs, hSt] at hout
        | Allow =>
          exact ⟨key, res, rfl, hs, hSt⟩

/-- C9 witness: a strategy that denies with count 3 and expiry 7 makes the
middleware answer the rejection response carrying those header values, and
the wrapped handler is not invoked. -/
theorem c9_middleware_witness :
    RateLimitingMiddleware
        ⟨fun _ => Except.ok "client",
          fun _ => Except.ok ⟨State.Deny, 3, 7⟩, 60, 2⟩ ⟨fun _ => ""⟩ =
      MiddlewareOutcome.denied ⟨3, "Deny", 7⟩ :=
  (c9_middleware
      ⟨fun _ => Except.ok "client",
        fun _ => Except.ok ⟨State.Deny, 3, 7⟩, 60, 2⟩ ⟨fun _ => ""⟩).2.1
    "client" ⟨State.Deny, 3, 7⟩ rfl rfl rfl

/-- C10: the extractor built by NewHTTPHeadersExtractor with no header names
iterates over nothing and joins an empty list, so it succeeds with the empty
string as the rate-limiting key for every request — even though a request
key is required elsewhere to be non-empty. -/
theorem c10_empty_headers_extractor (r : HTTPRequest) :
    httpHeaderExtractor.Extract [] r = Except.ok "" := rfl

end RateLimiter
